import Mathlib

/-!
Verification of the Demo-Stitcher audio engine (src/unnamed/part_001).

The TypeScript engine decodes tracks, estimates loudness, plans gains,
schedules a timeline (fades, gaps, watermark insertions), renders through a
Web Audio offline graph, and serializes the result as a 16-bit PCM RIFF/WAVE
byte stream.  Below, JavaScript numbers are modelled as rationals (and as
reals where square roots and real-valued gains appear), byte buffers as
lists of naturals, and the browser decode/render runtime as oracle
parameters; everything from the repository itself is translated clause by
clause from the source.
-/

/-- Model of a decoded `AudioBuffer`: channel count, frame count, sample
rate, and per-channel sample data (`data ch i` is frame `i` of channel
`ch`).  `duration` is `length / sampleRate`, as in Web Audio. -/
structure AudioBuffer where
  numberOfChannels : ℕ
  length : ℕ
  sampleRate : ℕ
  data : ℕ → ℕ → ℚ

/-- `buffer.duration` in seconds. -/
def AudioBuffer.duration (b : AudioBuffer) : ℚ :=
  (b.length : ℚ) / (b.sampleRate : ℚ)

/-- Sum of squared samples visited by the `calculateRMS` loop
(`for (i = 0; i < data.length; i += step)` with `step = 4` on channel 0):
indices `0, 4, 8, …`, of which there are `⌈length/4⌉ = (length+3)/4`. -/
def sampledSumSq (b : AudioBuffer) : ℚ :=
  ((List.range ((b.length + 3) / 4)).map (fun k => b.data 0 (4 * k) * b.data 0 (4 * k))).sum

/-- The radicand computed by `calculateRMS`: `sum / (data.length / step)`,
where the division by `data.length / 4` is exact rational division (the
JavaScript `/` on numbers), not the count of visited frames. -/
def rmsSquared (b : AudioBuffer) : ℚ :=
  sampledSumSq b / ((b.length : ℚ) / 4)

/-- `calculateRMS` (part_001 lines 15–25): `Math.sqrt(sum / (data.length / step))`. -/
noncomputable def calculateRMS (b : AudioBuffer) : ℝ :=
  Real.sqrt ((rmsSquared b : ℚ) : ℝ)

/-- Truncation toward zero, the effect of JavaScript `| 0` on a number of
small magnitude: the numerator is divided by the (positive) denominator
with the quotient rounded toward zero. -/
def truncQ (q : ℚ) : ℤ :=
  q.num.tdiv (q.den : ℤ)

/-- The per-sample quantization of `bufferToWav` (part_001 lines 65–66):
`sample = Math.max(-1, Math.min(1, s))` followed by
`(0.5 + sample < 0 ? sample * 32768 : sample * 32767) | 0`. -/
def quantize (s : ℚ) : ℤ :=
  let c := max (-1) (min 1 s)
  truncQ (if 1 / 2 + c < 0 then c * 32768 else c * 32767)

/-- Two little-endian bytes of a 16-bit value. -/
def u16LE (n : ℕ) : List ℕ :=
  [n % 256, n / 256 % 256]

/-- Four little-endian bytes of a 32-bit value. -/
def u32LE (n : ℕ) : List ℕ :=
  [n % 256, n / 256 % 256, n / 65536 % 256, n / 16777216 % 256]

/-- Little-endian bytes of a 16-bit signed sample, as written by
`view.setInt16(…, sample, true)`: the two bytes of `sample mod 2^16`. -/
def i16LE (z : ℤ) : List ℕ :=
  u16LE (z % 65536).toNat

/-- Bytes contributed by one frame of the interleaving loop of
`bufferToWav` (part_001 lines 62–71): for each channel in order, the
quantized 16-bit sample. -/
def frameBytes (b : AudioBuffer) (pos : ℕ) : List ℕ :=
  (List.range b.numberOfChannels).map (fun ch => i16LE (quantize (b.data ch pos))) |>.flatten

/-- The full interleaved data section of `bufferToWav`. -/
def wavData (b : AudioBuffer) : List ℕ :=
  (List.range b.length).map (frameBytes b) |>.flatten

/-- `bufferToWav` (part_001 lines 30–84) as a byte list: the 44-byte
RIFF/WAVE header written by the `setUint16`/`setUint32` helpers, followed by
the interleaved 16-bit data.  `length` is
`buffer.length * numOfChan * 2 + 44`; the data chunk length field is
`length - pos - 4` with `pos = 40`. -/
def bufferToWav (b : AudioBuffer) : List ℕ :=
  let numOfChan := b.numberOfChannels
  let len := b.length * numOfChan * 2 + 44
  u32LE 0x46464952 ++
  u32LE (len - 8) ++
  u32LE 0x45564157 ++
  u32LE 0x20746d66 ++
  u32LE 16 ++
  u16LE 1 ++
  u16LE numOfChan ++
  u32LE b.sampleRate ++
  u32LE (b.sampleRate * 2 * numOfChan) ++
  u16LE (numOfChan * 2) ++
  u16LE 16 ++
  u32LE 0x61746164 ++
  u32LE (len - 44) ++
  wavData b

/-- Read back a little-endian 16-bit field at byte offset `off`. -/
def readU16 (l : List ℕ) (off : ℕ) : ℕ :=
  l.getD off 0 + 256 * l.getD (off + 1) 0

/-- Read back a little-endian 32-bit field at byte offset `off`. -/
def readU32 (l : List ℕ) (off : ℕ) : ℕ :=
  l.getD off 0 + 256 * l.getD (off + 1) 0 + 65536 * l.getD (off + 2) 0 +
    16777216 * l.getD (off + 3) 0

/-- Timeline total (part_001 lines 171–186): for each decoded buffer,
`playDuration = min(buffer.duration, segmentDuration)` is accumulated, and
`silenceGap` is added after every track except the last
(`if index < length - 1`). -/
def timelineTotal (durs : List ℚ) (seg gap : ℚ) : ℚ :=
  match durs with
  | [] => 0
  | d :: rest => min d seg + (if rest = [] then 0 else gap) + timelineTotal rest seg gap

/-- One scheduled track window: `startTime = cursor`,
`endTime = startTime + playDuration`,
`fadeStartTime = max(startTime, endTime - fadeDuration)` (part_001
lines 221–230). -/
structure Window where
  start : ℚ
  fadeStart : ℚ
  endT : ℚ
deriving DecidableEq

/-- The scheduling loop of part_001 lines 204–240: walks the decoded
durations with a cursor, emitting each track's window and advancing by
`playDuration + silenceGap` (also after the last track; the cursor is then
unused). -/
def scheduleWindows (durs : List ℚ) (seg fade gap cursor : ℚ) : List Window :=
  match durs with
  | [] => []
  | d :: rest =>
    let p := min d seg
    let s := cursor
    let e := s + p
    ⟨s, max s (e - fade), e⟩ :: scheduleWindows rest seg fade gap (cursor + p + gap)

/-- The watermark loop of part_001 lines 251–264: starting from a cursor,
emit a start time and advance by `tagInterval` while the cursor is strictly
below `totalOutputDuration`.  The `0 < interval` guard only makes the
while-loop's termination explicit; the engine runs the loop solely when
`tagInterval > 0`. -/
def tagLoop (interval total cursor : ℚ) : List ℚ :=
  if h : 0 < interval ∧ cursor < total then
    cursor :: tagLoop interval total (cursor + interval)
  else
    []
termination_by (⌈(total - cursor) / interval⌉₊ : ℕ)
decreasing_by
  have hne : interval ≠ 0 := ne_of_gt h.1
  have h1 : (0 : ℚ) < (total - cursor) / interval := div_pos (by linarith [h.2]) h.1
  have h2 : (total - (cursor + interval)) / interval = (total - cursor) / interval - 1 := by
    field_simp
    ring
  rw [h2]
  have h3 : 0 < ⌈(total - cursor) / interval⌉₊ := Nat.ceil_pos.mpr h1
  have h4 : ⌈(total - cursor) / interval - 1⌉₊ ≤ ⌈(total - cursor) / interval⌉₊ - 1 := by
    rw [Nat.ceil_le]
    push_cast [Nat.cast_sub (by omega : 1 ≤ ⌈(total - cursor) / interval⌉₊)]
    linarith [Nat.le_ceil ((total - cursor) / interval)]
  omega

/-- Watermark start times (part_001 lines 243–251): the cursor starts at
`Math.min(5, totalOutputDuration / 2)` and the loop above runs. -/
def tagTimes (interval total : ℚ) : List ℚ :=
  tagLoop interval total (min 5 (total / 2))

/-- One watermark occurrence: a start time and the constant gain written to
its gain node (`tagGain.gain.value = 0.4`, part_001 line 256); no envelope
automation is attached to a watermark. -/
structure TagEvent where
  start : ℚ
  gain : ℚ
deriving DecidableEq

/-- Watermark occurrences: each loop iteration creates a source at the
cursor with constant gain `0.4`. -/
def tagEvents (interval total : ℚ) : List TagEvent :=
  (tagTimes interval total).map (fun c => ⟨c, 2 / 5⟩)

/-- Gain planning (part_001 lines 150–169): adjustments start at 1; when
`normalize` is set and the measured `rms` is positive, the adjustment is
`ratio = TARGET_RMS / rms` with `TARGET_RMS = 0.15`, clamped by
`Math.min(Math.max(ratio, 0.5), 3.0)`. -/
noncomputable def gainAdjust (normalize : Bool) (rms : ℝ) : ℝ :=
  if normalize then
    if 0 < rms then min (max (3 / 20 / rms) (1 / 2)) 3 else 1
  else 1

/-- Gain automation attached to a track window (part_001 lines 229–236):
`setValueAtTime(initialGain, fadeStartTime)` followed by
`linearRampToValueAtTime(0, endTime)`.  Modelled with the standard Web
Audio linear-ramp semantics: constant before the set point, a linear
interpolation from `g` down to `0` between the two automation points, and
`0` from the ramp end on. -/
noncomputable def envAt (g : ℝ) (w : Window) (t : ℝ) : ℝ :=
  if t ≤ (w.fadeStart : ℝ) then g
  else if (w.endT : ℝ) ≤ t then 0
  else g * (((w.endT : ℝ) - t) / ((w.endT : ℝ) - (w.fadeStart : ℝ)))

/-- Failure signals of `createDemoMix`: the empty-list guard
(`throw new Error('No tracks provided')`, part_001 lines 110–112) and the
fatal per-track decode failure (`Could not decode audio file: name`,
part_001 lines 130–133). -/
inductive EngineError where
  | inputError : EngineError
  | decodeError : String → EngineError
deriving DecidableEq

/-- The decode loop of part_001 lines 124–134: tracks are decoded in input
order and the first failure aborts the whole run, carrying the failing
track's name.  A track is modelled as its display name together with the
outcome the browser decoder would produce for its file (`none` = the
decoder throws). -/
def decodeAll : List (String × Option AudioBuffer) → Except EngineError (List AudioBuffer)
  | [] => .ok []
  | (name, outcome) :: rest =>
    match outcome with
    | none => .error (.decodeError name)
    | some b =>
      match decodeAll rest with
      | .error e => .error e
      | .ok bs => .ok (b :: bs)

/-- The engine options of part_001 lines 86–108 with their defaults.
`tagFile` is `none` when no watermark file is supplied, and otherwise
carries the decode outcome of the supplied file (`some none` = the
watermark file is present but fails to decode). -/
structure MixConfig where
  normalize : Bool := false
  segmentDuration : ℚ := 25
  fadeDuration : ℚ := 1 / 2
  silenceGap : ℚ := 3 / 10
  tagFile : Option (Option AudioBuffer) := none
  tagInterval : ℚ := 30

/-- Everything the offline graph render depends on besides the raw decoded
samples: the per-track windows and the watermark occurrences.  Per-track
gain values are real-valued (they involve a square root) and are analyzed
separately via `gainAdjust`. -/
structure Schedule where
  windows : List Window
  tags : List TagEvent
deriving DecidableEq

/-- The pair returned by `createDemoMix` (part_001 line 282). -/
structure MixOutput where
  wav : List ℕ
  mp3 : List ℕ
deriving DecidableEq

/-- `createDemoMix` (part_001 lines 100–283) with the browser runtime
abstracted: `renderData` stands for `OfflineAudioContext.startRendering`,
mapping the schedule to the rendered sample data (the summation and
mastering compressor are Web Audio runtime, not repository code).  The
repository's own steps are embedded: the empty-list guard, the ordered
fatal decode loop, the recoverable watermark decode (a failed `tagFile`
leaves `tagBuffer = null`), the timeline arithmetic, the window and
watermark scheduling, the rendered frame count
`Math.ceil(sampleRate * totalOutputDuration)` at 2 channels / 44100 Hz,
and the final `{ wav: wavBlob, mp3: wavBlob }` aliasing. -/
def createDemoMixModel (renderData : Schedule → ℕ → ℕ → ℚ)
    (tracks : List (String × Option AudioBuffer)) (cfg : MixConfig) :
    Except EngineError MixOutput :=
  if tracks.length = 0 then .error .inputError
  else
    match decodeAll tracks with
    | .error e => .error e
    | .ok decodedBuffers =>
      let tagBuffer : Option AudioBuffer := cfg.tagFile.bind id
      let durs := decodedBuffers.map AudioBuffer.duration
      let totalOutputDuration := timelineTotal durs cfg.segmentDuration cfg.silenceGap
      let sched : Schedule :=
        { windows := scheduleWindows durs cfg.segmentDuration cfg.fadeDuration cfg.silenceGap 0
          tags :=
            if tagBuffer.isSome ∧ 0 < cfg.tagInterval then
              tagEvents cfg.tagInterval totalOutputDuration
            else [] }
      let renderedBuffer : AudioBuffer :=
        { numberOfChannels := 2
          length := ⌈(44100 : ℚ) * totalOutputDuration⌉₊
          sampleRate := 44100
          data := renderData sched }
      let wavBlob := bufferToWav renderedBuffer
      .ok { wav := wavBlob, mp3 := wavBlob }

/-- Closed form of the timeline loop: one `min` per track plus one gap per
gap between consecutive tracks. -/
theorem timelineTotal_closed (durs : List ℚ) (seg gap : ℚ) (h : durs ≠ []) :
    timelineTotal durs seg gap =
      (durs.map (fun d => min d seg)).sum + gap * ((durs.length : ℚ) - 1) := by
  induction durs with
  | nil => exact absurd rfl h
  | cons d rest ih =>
    cases rest with
    | nil => simp [timelineTotal]
    | cons e tl =>
      have h2 : (e :: tl) ≠ [] := by simp
      have hu : timelineTotal (d :: e :: tl) seg gap =
          min d seg + gap + timelineTotal (e :: tl) seg gap := by
        simp [timelineTotal]
      rw [hu, ih h2]
      simp only [List.map_cons, List.sum_cons, List.length_cons]
      push_cast
      ring

/-- C1: for every non-empty list of decoded tracks, the total output
duration computed by the scheduler equals the sum over tracks of
`min(trackDuration, segmentDuration)` plus `silenceGap` times
`trackCount - 1` (exactly, hence within one sample-frame); no gap is
contributed after the final track. -/
theorem total_duration_eq_sum_plus_gaps (bufs : List AudioBuffer) (seg gap : ℚ)
    (h : bufs ≠ []) :
    timelineTotal (bufs.map AudioBuffer.duration) seg gap =
      (bufs.map (fun b => min b.duration seg)).sum + gap * ((bufs.length : ℚ) - 1) := by
  rw [timelineTotal_closed (bufs.map AudioBuffer.duration) seg gap (by simpa using h)]
  simp only [List.map_map, List.length_map]
  rfl

/-- A one-track, ten-second timeline evaluates as the C1 theorem states. -/
def bTen : AudioBuffer := ⟨2, 441000, 44100, fun _ _ => 0⟩

theorem total_duration_eq_sum_plus_gaps_witness :
    timelineTotal ([bTen].map AudioBuffer.duration) 25 (3 / 10) =
      ([bTen].map (fun b => min b.duration 25)).sum + (3 / 10) * (([bTen].length : ℚ) - 1) :=
  total_duration_eq_sum_plus_gaps [bTen] 25 (3 / 10) (by simp)

/-- The quantization rule exactly as the specification words it: clamp to
`[-1, 1]`, scale negative values by 32768 and non-negative values by 32767,
truncating toward zero.  Stated for comparison with `quantize`, the rule the
code actually implements. -/
def quantizeClaimed (s : ℚ) : ℤ :=
  let c := max (-1) (min 1 s)
  truncQ (if c < 0 then c * 32768 else c * 32767)

/-- C2 counterexample: at sample value `-1/4` the encoder computes
`trunc(-1/4 * 32767) = -8191`, while the claimed rule (negative values
scaled by 32768) would give `-8192`.  The code's guard is
`0.5 + sample < 0`, so the 32768 branch is taken only below `-0.5`. -/
theorem quantize_negative_counterexample :
    quantize (-(1 / 4)) = -8191 ∧ quantizeClaimed (-(1 / 4)) = -8192 := by
  constructor
  · norm_num [quantize, truncQ]
    decide
  · norm_num [quantizeClaimed, truncQ]

/-- The quantization rule with the threshold the code actually uses: the
clamped value is scaled by 32768 when it lies strictly below `-1/2`, and by
32767 otherwise, truncating toward zero. -/
def quantizeAmended (s : ℚ) : ℤ :=
  let c := max (-1) (min 1 s)
  truncQ (if c < -(1 / 2) then c * 32768 else c * 32767)

/-- C2 amended: the encoder's 16-bit quantization first clamps to `[-1, 1]`,
then scales by 32768 exactly those values whose clamped result is below
`-0.5` (the code's `0.5 + sample < 0` guard) and by 32767 all others,
truncating toward zero. -/
theorem quantize_threshold_half :
    ∀ s : ℚ, quantize s = quantizeAmended s := by
  intro s
  have hiff : (1 / 2 + max (-1) (min 1 s) < 0) ↔ (max (-1) (min 1 s) < -(1 / 2)) := by
    constructor <;> intro hlt <;> linarith
  simp only [quantize, quantizeAmended, hiff]

/-- Sum of a constant-valued map, used to count data bytes. -/
theorem sum_map_const {α : Type} (l : List α) (c : ℕ) :
    (l.map (fun _ => c)).sum = l.length * c := by
  induction l with
  | nil => simp
  | cons a t ih => simp [ih]; ring

/-- Each frame contributes two bytes per channel. -/
theorem frameBytes_length (b : AudioBuffer) (pos : ℕ) :
    (frameBytes b pos).length = b.numberOfChannels * 2 := by
  simp only [frameBytes, List.length_flatten, List.map_map]
  have h1 : List.map (List.length ∘ fun ch => i16LE (quantize (b.data ch pos)))
      (List.range b.numberOfChannels) =
      List.map (fun _ => 2) (List.range b.numberOfChannels) := by
    apply List.map_congr_left
    intro a _
    simp [Function.comp, i16LE, u16LE]
  rw [h1, sum_map_const, List.length_range]

/-- The data section holds `frames × channels × 2` bytes. -/
theorem wavData_length (b : AudioBuffer) :
    (wavData b).length = b.length * (b.numberOfChannels * 2) := by
  simp only [wavData, List.length_flatten, List.map_map]
  have h1 : List.map (List.length ∘ frameBytes b) (List.range b.length) =
      List.map (fun _ => b.numberOfChannels * 2) (List.range b.length) := by
    apply List.map_congr_left
    intro a _
    simp [Function.comp, frameBytes_length b a]
  rw [h1, sum_map_const, List.length_range]

/-- The emitted byte count matches the `length` the header arithmetic uses:
`buffer.length * numOfChan * 2 + 44`. -/
theorem bufferToWav_length (b : AudioBuffer) :
    (bufferToWav b).length = b.length * b.numberOfChannels * 2 + 44 := by
  simp [bufferToWav, u32LE, u16LE, wavData_length]
  ring

/-- Skipping a block of known length shifts a default-valued lookup. -/
theorem getD_shift (l rest : List ℕ) (k n d : ℕ) (hl : l.length = k) :
    (l ++ rest).getD (k + n) d = rest.getD n d := by
  subst hl
  rw [List.getD_append_right _ _ _ _ (by omega)]
  congr 1
  omega

/-- Skipping a block of known length shifts a 32-bit field read. -/
theorem readU32_shift (l rest : List ℕ) (k n : ℕ) (hl : l.length = k) :
    readU32 (l ++ rest) (k + n) = readU32 rest n := by
  simp only [readU32]
  rw [show k + n + 1 = k + (n + 1) by omega, show k + n + 2 = k + (n + 2) by omega,
    show k + n + 3 = k + (n + 3) by omega,
    getD_shift l rest k n 0 hl, getD_shift l rest k (n + 1) 0 hl,
    getD_shift l rest k (n + 2) 0 hl, getD_shift l rest k (n + 3) 0 hl]

/-- Skipping a block of known length shifts a 16-bit field read. -/
theorem readU16_shift (l rest : List ℕ) (k n : ℕ) (hl : l.length = k) :
    readU16 (l ++ rest) (k + n) = readU16 rest n := by
  simp only [readU16]
  rw [show k + n + 1 = k + (n + 1) by omega,
    getD_shift l rest k n 0 hl, getD_shift l rest k (n + 1) 0 hl]

/-- Reading a 32-bit field where it was written returns it modulo `2^32`. -/
theorem readU32_head (m : ℕ) (rest : List ℕ) :
    readU32 (u32LE m ++ rest) 0 = m % 4294967296 := by
  have h : readU32 (u32LE m ++ rest) 0 =
      m % 256 + 256 * (m / 256 % 256) + 65536 * (m / 65536 % 256) +
        16777216 * (m / 16777216 % 256) := rfl
  rw [h]
  omega

/-- Reading a 16-bit field where it was written returns it modulo `2^16`. -/
theorem readU16_head (m : ℕ) (rest : List ℕ) :
    readU16 (u16LE m ++ rest) 0 = m % 65536 := by
  have h : readU16 (u16LE m ++ rest) 0 = m % 256 + 256 * (m / 256 % 256) := rfl
  rw [h]
  omega

/-- C3: for every encoded output of the engine (2 channels, 44100 Hz, with
a byte length that fits the 32-bit RIFF size field), the WAV bytes carry
"RIFF" at offsets 0–3 and "WAVE" at offsets 8–11, a fmt chunk declaring PCM
format tag 1, 2 channels, 44100 Hz, byte rate `44100 * 2 * 2`, block align
`2 * 2` and 16 bits per sample, and the RIFF length field at offset 4
equals the actual total byte length minus 8. -/
theorem wav_header_fields (b : AudioBuffer) (hch : b.numberOfChannels = 2)
    (hsr : b.sampleRate = 44100) (hlen : b.length * 4 + 36 < 4294967296) :
    ((bufferToWav b).getD 0 0 = 82 ∧ (bufferToWav b).getD 1 0 = 73 ∧
     (bufferToWav b).getD 2 0 = 70 ∧ (bufferToWav b).getD 3 0 = 70) ∧
    ((bufferToWav b).getD 8 0 = 87 ∧ (bufferToWav b).getD 9 0 = 65 ∧
     (bufferToWav b).getD 10 0 = 86 ∧ (bufferToWav b).getD 11 0 = 69) ∧
    readU16 (bufferToWav b) 20 = 1 ∧
    readU16 (bufferToWav b) 22 = 2 ∧
    readU32 (bufferToWav b) 24 = 44100 ∧
    readU32 (bufferToWav b) 28 = 44100 * 2 * 2 ∧
    readU16 (bufferToWav b) 32 = 2 * 2 ∧
    readU16 (bufferToWav b) 34 = 16 ∧
    (bufferToWav b).length = b.length * 2 * 2 + 44 ∧
    readU32 (bufferToWav b) 4 = (bufferToWav b).length - 8 := by
  obtain ⟨ch, len, sr, dat⟩ := b
  have hch2 : ch = 2 := hch
  have hsr2 : sr = 44100 := hsr
  subst hch2
  subst hsr2
  have hlen2 : len * 4 + 36 < 4294967296 := hlen
  have hw : bufferToWav ⟨2, len, 44100, dat⟩ =
      u32LE 1179011410 ++
      (u32LE (len * 2 * 2 + 44 - 8) ++
      (u32LE 1163280727 ++
      (u32LE 544501094 ++
      (u32LE 16 ++
      (u16LE 1 ++
      (u16LE 2 ++
      (u32LE 44100 ++
      (u32LE 176400 ++
      (u16LE 4 ++
      (u16LE 16 ++
      (u32LE 1635017060 ++
      (u32LE (len * 2 * 2 + 44 - 44) ++
      wavData ⟨2, len, 44100, dat⟩)))))))))))) := by
    dsimp only [bufferToWav]
    norm_num
  have hlength : (bufferToWav ⟨2, len, 44100, dat⟩).length = len * 2 * 2 + 44 := by
    rw [bufferToWav_length]
  have g4 : ∀ (m : ℕ) (r : List ℕ) (n : ℕ), (u32LE m ++ r).getD (4 + n) 0 = r.getD n 0 :=
    fun m r n => getD_shift (u32LE m) r 4 n 0 (by simp [u32LE])
  have g2 : ∀ (m : ℕ) (r : List ℕ) (n : ℕ), (u16LE m ++ r).getD (2 + n) 0 = r.getD n 0 :=
    fun m r n => getD_shift (u16LE m) r 2 n 0 (by simp [u16LE])
  have r32s4 : ∀ (m : ℕ) (r : List ℕ) (n : ℕ), readU32 (u32LE m ++ r) (4 + n) = readU32 r n :=
    fun m r n => readU32_shift (u32LE m) r 4 n (by simp [u32LE])
  have r32s2 : ∀ (m : ℕ) (r : List ℕ) (n : ℕ), readU32 (u16LE m ++ r) (2 + n) = readU32 r n :=
    fun m r n => readU32_shift (u16LE m) r 2 n (by simp [u16LE])
  have r16s4 : ∀ (m : ℕ) (r : List ℕ) (n : ℕ), readU16 (u32LE m ++ r) (4 + n) = readU16 r n :=
    fun m r n => readU16_shift (u32LE m) r 4 n (by simp [u32LE])
  have r16s2 : ∀ (m : ℕ) (r : List ℕ) (n : ℕ), readU16 (u16LE m ++ r) (2 + n) = readU16 r n :=
    fun m r n => readU16_shift (u16LE m) r 2 n (by simp [u16LE])
  refine ⟨⟨?_, ?_, ?_, ?_⟩, ⟨?_, ?_, ?_, ?_⟩, ?_, ?_, ?_, ?_, ?_, ?_, hlength, ?_⟩
  · rw [hw]; rfl
  · rw [hw]; rfl
  · rw [hw]; rfl
  · rw [hw]; rfl
  · rw [hw]
    show List.getD _ (4 + (4 + 0)) 0 = 87
    rw [g4, g4]; rfl
  · rw [hw]
    show List.getD _ (4 + (4 + 1)) 0 = 65
    rw [g4, g4]; rfl
  · rw [hw]
    show List.getD _ (4 + (4 + 2)) 0 = 86
    rw [g4, g4]; rfl
  · rw [hw]
    show List.getD _ (4 + (4 + 3)) 0 = 69
    rw [g4, g4]; rfl
  · rw [hw]
    show readU16 _ (4 + (4 + (4 + (4 + (4 + 0))))) = 1
    rw [r16s4, r16s4, r16s4, r16s4, r16s4, readU16_head]
  · rw [hw]
    show readU16 _ (4 + (4 + (4 + (4 + (4 + (2 + 0)))))) = 2
    rw [r16s4, r16s4, r16s4, r16s4, r16s4, r16s2, readU16_head]
  · rw [hw]
    show readU32 _ (4 + (4 + (4 + (4 + (4 + (2 + (2 + 0))))))) = 44100
    rw [r32s4, r32s4, r32s4, r32s4, r32s4, r32s2, r32s2, readU32_head]
  · rw [hw]
    show readU32 _ (4 + (4 + (4 + (4 + (4 + (2 + (2 + (4 + 0)))))))) = 44100 * 2 * 2
    rw [r32s4, r32s4, r32s4, r32s4, r32s4, r32s2, r32s2, r32s4, readU32_head]
  · rw [hw]
    show readU16 _ (4 + (4 + (4 + (4 + (4 + (2 + (2 + (4 + (4 + 0))))))))) = 2 * 2
    rw [r16s4, r16s4, r16s4, r16s4, r16s4, r16s2, r16s2, r16s4, r16s4, readU16_head]
  · rw [hw]
    show readU16 _ (4 + (4 + (4 + (4 + (4 + (2 + (2 + (4 + (4 + (2 + 0)))))))))) = 16
    rw [r16s4, r16s4, r16s4, r16s4, r16s4, r16s2, r16s2, r16s4, r16s4, r16s2, readU16_head]
  · rw [hlength, hw]
    show readU32 _ (4 + 0) = len * 2 * 2 + 44 - 8
    rw [r32s4, readU32_head]
    omega

/-- A two-channel buffer at 44100 Hz used to exercise the header theorem. -/
def wavWitnessBuf : AudioBuffer := ⟨2, 1, 44100, fun _ _ => 0⟩

theorem wav_header_fields_witness :
    readU32 (bufferToWav wavWitnessBuf) 4 = (bufferToWav wavWitnessBuf).length - 8 :=
  (wav_header_fields wavWitnessBuf rfl rfl (by norm_num [wavWitnessBuf])).2.2.2.2.2.2.2.2.2

/-- C4: for every track, with normalization enabled the computed gain
multiplier lies in `[0.5, 3.0]` and is exactly 1 when the measured rms is
0; with normalization disabled the gain is exactly 1 regardless of
loudness. -/
theorem gain_multiplier_bounds (b : AudioBuffer) :
    gainAdjust true (calculateRMS b) ∈ Set.Icc (1 / 2 : ℝ) 3 ∧
    (calculateRMS b = 0 → gainAdjust true (calculateRMS b) = 1) ∧
    gainAdjust false (calculateRMS b) = 1 := by
  refine ⟨?_, ?_, ?_⟩
  · by_cases hrms : 0 < calculateRMS b
    · simp only [gainAdjust, if_pos rfl, if_pos hrms]
      constructor
      · exact le_min (le_max_right _ _) (by norm_num)
      · exact min_le_right _ _
    · simp only [gainAdjust, if_pos rfl, if_neg hrms]
      norm_num
  · intro h0
    simp only [gainAdjust, if_pos rfl, h0]
    norm_num
  · simp [gainAdjust]

/-- A four-frame silent buffer: its measured rms is 0. -/
def silentBuf : AudioBuffer := ⟨1, 4, 44100, fun _ _ => 0⟩

/-- The measured loudness of the silent buffer is 0. -/
theorem calculateRMS_silentBuf : calculateRMS silentBuf = 0 := by
  have h : rmsSquared silentBuf = 0 := by
    norm_num [rmsSquared, sampledSumSq, silentBuf, List.range_succ]
  rw [calculateRMS, h]
  norm_num

theorem gain_multiplier_bounds_witness :
    gainAdjust true (calculateRMS silentBuf) = 1 :=
  (gain_multiplier_bounds silentBuf).2.1 calculateRMS_silentBuf

/-- Each element emitted by the watermark loop is the start cursor plus a
whole number of intervals, and lies strictly below the total duration. -/
theorem tagLoop_getD (interval total : ℚ) :
    ∀ (k : ℕ) (cursor : ℚ), 0 < interval →
      k < (tagLoop interval total cursor).length →
      (tagLoop interval total cursor).getD k 0 = cursor + k * interval ∧
      (tagLoop interval total cursor).getD k 0 < total := by
  intro k
  induction k with
  | zero =>
    intro cursor hpos hk
    rw [tagLoop.eq_def] at hk ⊢
    by_cases hc : cursor < total
    · rw [dif_pos ⟨hpos, hc⟩] at hk ⊢
      simp [hc]
    · rw [dif_neg (by tauto)] at hk
      simp at hk
  | succ k ih =>
    intro cursor hpos hk
    rw [tagLoop.eq_def] at hk ⊢
    by_cases hc : cursor < total
    · rw [dif_pos ⟨hpos, hc⟩] at hk ⊢
      simp only [List.getD_cons_succ, List.length_cons] at hk ⊢
      have hrec := ih (cursor + interval) hpos (by omega)
      refine ⟨?_, hrec.2⟩
      rw [hrec.1]
      push_cast
      ring
    · rw [dif_neg (by tauto)] at hk
      simp at hk

/-- C5: whenever a watermark buffer is supplied and `tagInterval > 0`, the
watermark occurrences start at `min(5, totalDuration/2)`, step by exactly
`tagInterval`, all lie strictly below the total duration, each carries the
constant gain 0.4 with no fade, and for `tagInterval = 30` and a total
duration of 90 s the start times are exactly 5, 35 and 65 seconds. -/
theorem watermark_schedule :
    (∀ interval total : ℚ, 0 < interval → ∀ k : ℕ,
      k < (tagTimes interval total).length →
      (tagTimes interval total).getD k 0 = min 5 (total / 2) + k * interval ∧
      (tagTimes interval total).getD k 0 < total) ∧
    (∀ interval total : ℚ, ∀ e ∈ tagEvents interval total, e.gain = 2 / 5) ∧
    tagTimes 30 90 = [5, 35, 65] := by
  refine ⟨?_, ?_, ?_⟩
  · intro interval total hpos k hk
    exact tagLoop_getD interval total k (min 5 (total / 2)) hpos hk
  · intro interval total e he
    simp only [tagEvents, List.mem_map] at he
    obtain ⟨c, _, hc⟩ := he
    rw [← hc]
  · have h5 : min (5 : ℚ) (90 / 2) = 5 := by norm_num [min_def]
    rw [tagTimes, h5]
    rw [tagLoop.eq_def]
    norm_num
    rw [tagLoop.eq_def]
    norm_num
    rw [tagLoop.eq_def]
    norm_num
    rw [tagLoop.eq_def]
    norm_num

theorem watermark_schedule_witness :
    (0 : ℚ) < 30 ∧ tagTimes 30 90 = [5, 35, 65] ∧
      (tagTimes 30 90).getD 0 0 = min 5 (90 / 2) + (0 : ℕ) * 30 :=
  ⟨by norm_num, watermark_schedule.2.2,
    (watermark_schedule.1 30 90 (by norm_num) 0
      (by rw [watermark_schedule.2.2]; norm_num)).1⟩

/-- Every window the scheduling loop emits has
`fadeStart = max(start, end - fadeDuration)`. -/
theorem scheduleWindows_fadeStart (durs : List ℚ) (seg fade gap : ℚ) :
    ∀ (cursor : ℚ) (w : Window), w ∈ scheduleWindows durs seg fade gap cursor →
      w.fadeStart = max w.start (w.endT - fade) := by
  induction durs with
  | nil => intro cursor w hw; simp [scheduleWindows] at hw
  | cons d rest ih =>
    intro cursor w hw
    simp only [scheduleWindows, List.mem_cons] at hw
    rcases hw with hw | hw
    · rw [hw]
    · exact ih _ w hw

/-- C6: for every scheduled track window (with a nondegenerate fade
region), the fade start is never before the window start, the gain
automation holds the track's gain constant from the window start until the
fade start, then ramps linearly down to 0, and the envelope is exactly 0
at the window end. -/
theorem fade_envelope (durs : List ℚ) (seg fade gap cursor : ℚ) (w : Window)
    (hw : w ∈ scheduleWindows durs seg fade gap cursor) (g t : ℝ)
    (hfe : w.fadeStart < w.endT) :
    w.start ≤ w.fadeStart ∧
    (((w.start : ℚ) : ℝ) ≤ t → t ≤ ((w.fadeStart : ℚ) : ℝ) → envAt g w t = g) ∧
    (((w.fadeStart : ℚ) : ℝ) ≤ t → t ≤ ((w.endT : ℚ) : ℝ) →
      envAt g w t = g * ((((w.endT : ℚ) : ℝ) - t) / (((w.endT : ℚ) : ℝ) - ((w.fadeStart : ℚ) : ℝ)))) ∧
    envAt g w ((w.endT : ℚ) : ℝ) = 0 := by
  have hmax := scheduleWindows_fadeStart durs seg fade gap cursor w hw
  have hfeR : ((w.fadeStart : ℚ) : ℝ) < ((w.endT : ℚ) : ℝ) := by exact_mod_cast hfe
  refine ⟨?_, ?_, ?_, ?_⟩
  · rw [hmax]; exact le_max_left _ _
  · intro _ hts
    rw [envAt, if_pos hts]
  · intro hfs hte
    rcases eq_or_lt_of_le hfs with heq | hlt
    · rw [envAt, if_pos (le_of_eq heq.symm), ← heq]
      rw [div_self (by linarith), mul_one]
    · rw [envAt, if_neg (by linarith)]
      rcases eq_or_lt_of_le hte with heq2 | hlt2
      · rw [heq2, if_pos le_rfl]
        rw [sub_self, zero_div, mul_zero]
      · rw [if_neg (by linarith)]
  · rw [envAt, if_neg (by linarith), if_pos le_rfl]

/-- The single window scheduled for a ten-second track with the default
options. -/
def tenSecWindow : Window := ⟨0, 19 / 2, 10⟩

theorem fade_envelope_witness :
    tenSecWindow.start ≤ tenSecWindow.fadeStart ∧
    (((tenSecWindow.start : ℚ) : ℝ) ≤ 5 → (5 : ℝ) ≤ ((tenSecWindow.fadeStart : ℚ) : ℝ) →
      envAt 1 tenSecWindow 5 = 1) ∧
    (((tenSecWindow.fadeStart : ℚ) : ℝ) ≤ 5 → (5 : ℝ) ≤ ((tenSecWindow.endT : ℚ) : ℝ) →
      envAt 1 tenSecWindow 5 =
        1 * ((((tenSecWindow.endT : ℚ) : ℝ) - 5) /
          (((tenSecWindow.endT : ℚ) : ℝ) - ((tenSecWindow.fadeStart : ℚ) : ℝ)))) ∧
    envAt 1 tenSecWindow ((tenSecWindow.endT : ℚ) : ℝ) = 0 :=
  fade_envelope [10] 25 (1 / 2) (3 / 10) 0 tenSecWindow
    (by simp [scheduleWindows, tenSecWindow]; norm_num [min_def, max_def]) 1 5
    (by norm_num [tenSecWindow])

/-- C7: for the empty track list the engine fails with the input error
before any decode work or buffer allocation occurs — the result is the
same for every render oracle and configuration, and no partial result is
ever returned. -/
theorem empty_tracks_input_error (renderData : Schedule → ℕ → ℕ → ℚ) (cfg : MixConfig) :
    createDemoMixModel renderData [] cfg = .error .inputError ∧
    ∀ out : MixOutput, createDemoMixModel renderData [] cfg ≠ .ok out := by
  constructor
  · rfl
  · intro out h
    have h0 : createDemoMixModel renderData [] cfg = .error .inputError := rfl
    rw [h0] at h
    exact Except.noConfusion h

/-- C8: a failing watermark decode is recoverable — the run is identical
to a run with no watermark file at all, and still succeeds whenever the
required tracks decode; a failing required track, by contrast, aborts the
whole render with its decode error. -/
theorem tag_decode_failure_recoverable (renderData : Schedule → ℕ → ℕ → ℚ)
    (tracks : List (String × Option AudioBuffer)) (cfg : MixConfig) (name : String) :
    (createDemoMixModel renderData tracks { cfg with tagFile := some none } =
      createDemoMixModel renderData tracks { cfg with tagFile := none }) ∧
    (tracks.length ≠ 0 → (decodeAll tracks).isOk = true →
      (createDemoMixModel renderData tracks { cfg with tagFile := some none }).isOk = true) ∧
    (tracks.length ≠ 0 → decodeAll tracks = .error (.decodeError name) →
      createDemoMixModel renderData tracks cfg = .error (.decodeError name)) := by
  refine ⟨?_, ?_, ?_⟩
  · by_cases h0 : tracks.length = 0
    · simp [createDemoMixModel, h0]
    · cases hd : decodeAll tracks with
      | error e => simp [createDemoMixModel, h0, hd]
      | ok bufs => simp [createDemoMixModel, h0, hd, Option.bind]
  · intro h0 hok
    cases hd : decodeAll tracks with
    | error e => rw [hd] at hok; simp [Except.isOk, Except.toBool] at hok
    | ok bufs => simp [createDemoMixModel, h0, hd, Except.isOk, Except.toBool]
  · intro h0 hd
    simp [createDemoMixModel, h0, hd]

/-- A trivial render oracle and a track whose decode outcome is an empty
two-channel buffer, used to exercise the pipeline theorems. -/
def zeroRender : Schedule → ℕ → ℕ → ℚ := fun _ _ _ => 0

def emptyDecodedBuf : AudioBuffer := ⟨2, 0, 44100, fun _ _ => 0⟩

theorem tag_decode_failure_recoverable_witness :
    (createDemoMixModel zeroRender [("t", some emptyDecodedBuf)]
        { tagFile := some none } ).isOk = true ∧
    createDemoMixModel zeroRender [("bad", none), ("t", some emptyDecodedBuf)] {} =
      .error (.decodeError "bad") :=
  ⟨(tag_decode_failure_recoverable zeroRender [("t", some emptyDecodedBuf)] {} "x").2.1
      (by simp) (by rfl),
    (tag_decode_failure_recoverable zeroRender [("bad", none), ("t", some emptyDecodedBuf)]
        {} "bad").2.2 (by simp) (by rfl)⟩

/-- C10: every successful render returns the same byte buffer under the
"wav" and "mp3" labels (`return { wav: wavBlob, mp3: wavBlob }`). -/
theorem wav_mp3_same_bytes (renderData : Schedule → ℕ → ℕ → ℚ)
    (tracks : List (String × Option AudioBuffer)) (cfg : MixConfig) (out : MixOutput)
    (h : createDemoMixModel renderData tracks cfg = .ok out) :
    out.wav = out.mp3 := by
  rw [createDemoMixModel] at h
  by_cases h0 : tracks.length = 0
  · rw [if_pos h0] at h
    exact Except.noConfusion h
  · rw [if_neg h0] at h
    cases hd : decodeAll tracks with
    | error e => rw [hd] at h; exact Except.noConfusion h
    | ok bufs =>
      rw [hd] at h
      have h2 := Except.ok.inj h
      rw [← h2]

/-- The 44 header bytes of an empty (zero-frame) stereo render. -/
def emptyWavBytes : List ℕ :=
  [82, 73, 70, 70, 36, 0, 0, 0, 87, 65, 86, 69, 102, 109, 116, 32, 16, 0, 0, 0, 1, 0, 2, 0,
   68, 172, 0, 0, 16, 177, 2, 0, 4, 0, 16, 0, 100, 97, 116, 97, 0, 0, 0, 0]

def emptyMixOutput : MixOutput := ⟨emptyWavBytes, emptyWavBytes⟩

theorem wav_mp3_same_bytes_witness : emptyMixOutput.wav = emptyMixOutput.mp3 :=
  wav_mp3_same_bytes zeroRender [("t", some emptyDecodedBuf)] {} emptyMixOutput
    (by norm_num [createDemoMixModel, decodeAll, timelineTotal, bufferToWav, wavData,
      u32LE, u16LE, AudioBuffer.duration, emptyDecodedBuf, emptyMixOutput, emptyWavBytes])

/-- Modelled from the spec: the arithmetic mean of the squared samples
over the frames the analyzer actually visits — the sum divided by the
count `⌈length/4⌉` of visited frames (the code instead divides by the
exact quotient `length / 4`). -/
def rmsSpecMean (b : AudioBuffer) : ℚ :=
  sampledSumSq b / (((b.length + 3) / 4 : ℕ) : ℚ)

/-- Modelled from the spec: `rms = sqrt(mean(sample² over the sampled
frames))`. -/
noncomputable def rmsSpec (b : AudioBuffer) : ℝ :=
  Real.sqrt ((rmsSpecMean b : ℚ) : ℝ)

/-- A five-frame mono buffer whose first channel is `[1, 0, 0, 0, 1]`: the
loop visits frames 0 and 4 and sums two squared samples. -/
def fiveFrameBuf : AudioBuffer := ⟨1, 5, 44100, fun _ i => if i % 4 = 0 then 1 else 0⟩

/-- C9 counterexample: on the five-frame buffer the analyzer computes
`sqrt(2 / (5/4)) = sqrt(8/5)`, while the mean over the two visited frames
is `2 / 2 = 1`, so the claimed `rms = sqrt(mean over sampled frames)`
fails. -/
theorem calculateRMS_not_mean_counterexample :
    calculateRMS fiveFrameBuf ≠ rmsSpec fiveFrameBuf := by
  have h1 : rmsSquared fiveFrameBuf = 8 / 5 := by
    norm_num [rmsSquared, sampledSumSq, fiveFrameBuf, List.range_succ]
  have h2 : rmsSpecMean fiveFrameBuf = 1 := by
    norm_num [rmsSpecMean, sampledSumSq, fiveFrameBuf, List.range_succ]
  intro h
  rw [calculateRMS, rmsSpec, h1, h2] at h
  rw [Real.sqrt_inj (by push_cast; norm_num) (by push_cast; norm_num)] at h
  have h3 : ((8 / 5 : ℚ) : ℝ) ≠ ((1 : ℚ) : ℝ) := by push_cast; norm_num
  exact h3 h

/-- C9 amended: the analyzer returns `sqrt(sum / (length/4))` with the
exact rational quotient `length / 4` as denominator; this coincides with
the spec's mean over the visited frames exactly when the frame count is a
multiple of 4. -/
theorem calculateRMS_mean_when_div4 (b : AudioBuffer) (hdvd : 4 ∣ b.length) :
    calculateRMS b = rmsSpec b := by
  obtain ⟨m, hm⟩ := hdvd
  rw [calculateRMS, rmsSpec]
  congr 1
  rw [rmsSquared, rmsSpecMean, hm]
  have hc : (4 * m + 3) / 4 = m := by omega
  rw [hc]
  push_cast
  ring_nf

/-- A four-frame buffer on which the code's rms and the spec's mean-based
rms agree. -/
def fourFrameBuf : AudioBuffer := ⟨1, 4, 44100, fun _ i => if i = 0 then 1 else 0⟩

theorem calculateRMS_mean_when_div4_witness :
    calculateRMS fourFrameBuf = rmsSpec fourFrameBuf :=
  calculateRMS_mean_when_div4 fourFrameBuf (by norm_num [fourFrameBuf])
